import Mathlib

/-!
A verification development for the `k3qs.py` vocabulary-quiz program: the
question-prefetch engine and quiz progression state machine.

Modelling conventions, stated once here:
* Python strings are Lean `String`s; character-level operations of the parser
  are carried out on `List Char` (`String.data`).
* `random.sample(pop, 4)` is modelled by an explicit index list `sel`
  (positions into the population); its validity (`IsSampleSel`) captures
  exactly what `random.sample` guarantees: 4 pairwise-distinct in-range
  positions.  `random.shuffle(l)` is modelled by an index list `perm` that is
  a permutation of `List.range l.length`.
* The external sentence-generation transport is opaque: it is a parameter of
  type `Except String String` (success content, or the message of the raised
  exception).
* Background threads: the worker's single-slot result cell starts at `none`
  and is written exactly once on success; a join that happens after the
  worker finished is modelled by reading the completed cell.  Ghost fields
  (`alive_jobs`, `popped`, `job_started_for`) instrument the state for the
  concurrency invariants and have no effect on behaviour.
-/

namespace K3qs

/-- One vocabulary entry, `{"Verb": ..., "Translation": ...}` in the source. -/
structure VocabPair where
  verb : String
  translation : String
deriving DecidableEq, Repr, Inhabited

/-- The dictionary returned by `prepare_question_data`. -/
structure QData where
  current_verb : String
  correct_translation : String
  context_sentence : String
  translations : List String
deriving DecidableEq, Repr, Inhabited

/-- One entry of `st.session_state.incorrect_answers`. -/
structure AnswerRecord where
  verb : String
  correct_translation : String
  user_choice : String
deriving DecidableEq, Repr, Inhabited

/-- The error taxonomy of the spec (§7).  `insufficientData` is the
`st.error` early return of `initialize_quiz`; `insufficientDistractors` is
the `ValueError` that `random.sample` raises when the population is smaller
than the requested count. -/
inductive QuizError where
  | insufficientData
  | insufficientDistractors
deriving DecidableEq, Repr

/-- Python whitespace as stripped by `str.strip()` (ASCII part). -/
def isPySpace (c : Char) : Bool :=
  c == ' ' || c == '\t' || c == '\n' || c == '\x0d' || c == '\x0b' || c == '\x0c'

/-- Python `str.strip()` on a character list. -/
def pyStrip (l : List Char) : List Char :=
  ((l.dropWhile isPySpace).reverse.dropWhile isPySpace).reverse

/-- One iteration of the loop body of `load_verbs`: a line is accepted iff it
contains both `[` and `]`; the verb is the text before the first `[`, the
translation the text after that `[` up to the first following `]`
(`line.split('[', 1)` then `.split(']')[0]`), both stripped. -/
def parseLine (l : List Char) : Option VocabPair :=
  if l.contains '[' && l.contains ']' then
    let verb := l.takeWhile (fun c => c ≠ '[')
    let rest := (l.dropWhile (fun c => c ≠ '[')).tail
    let translation := pyStrip (rest.takeWhile (fun c => c ≠ ']'))
    some { verb := ⟨pyStrip verb⟩, translation := ⟨translation⟩ }
  else
    none

/-- The function `load_verbs`, given the input already split into lines: the accepted
lines' pairs in file order. -/
def load_verbs (lines : List String) : List VocabPair :=
  lines.filterMap (fun line => parseLine line.data)

/-- The function `generate_context_sentence`.  `tr` is the opaque transport outcome of the
one external call: `.ok content` if `client.chat.completions.create`
succeeded with that content, `.error e` if it raised with message `e`.  The
function never raises: an empty key or a transport error is turned into a
placeholder string. -/
def generate_context_sentence (verb api_key : String) (tr : Except String String) : String :=
  if api_key = "" then
    "[API Key not provided]"
  else
    match tr with
    | .ok content => content
    | .error e => "[Sentence generation failed for '" ++ verb ++ "': " ++ e ++ "]"

/-- Reads `l[i]` with a default, used to read an index list produced by
`random.sample` / `random.shuffle`. -/
def pickAt {α : Type} [Inhabited α] (l : List α) (idx : List Nat) : List α :=
  idx.map (fun i => l.getD i default)

/-- Validity of a `random.sample(pop, k)` outcome over a population of size
`n`: `k` pairwise-distinct in-range positions. -/
def IsSampleSel (sel : List Nat) (n k : Nat) : Prop :=
  sel.length = k ∧ sel.Nodup ∧ ∀ i ∈ sel, i < n

instance (sel : List Nat) (n k : Nat) : Decidable (IsSampleSel sel n k) := by
  unfold IsSampleSel; infer_instance

/-- Validity of a `random.shuffle` outcome on a list of length `n`. -/
def IsShuffle (perm : List Nat) (n : Nat) : Prop :=
  perm.Perm (List.range n)

instance (perm : List Nat) (n : Nat) : Decidable (IsShuffle perm n) := by
  unfold IsShuffle; infer_instance

/-- The function `prepare_question_data`.  `sel` models the `random.sample(other_verbs, 4)`
draw and `perm` the `random.shuffle(translations)` permutation.  The error
value models the `ValueError` that `random.sample` raises when fewer than 4
pairs have a translation different from the correct one. -/
def prepare_question_data (verb_entry : VocabPair) (all_verbs : List VocabPair)
    (api_key : String) (tr : Except String String) (sel perm : List Nat) :
    Except QuizError QData :=
  let current_verb := verb_entry.verb
  let correct_translation := verb_entry.translation
  let context_sentence := generate_context_sentence current_verb api_key tr
  let other_verbs := all_verbs.filter (fun v => v.translation ≠ correct_translation)
  if other_verbs.length < 4 then
    .error .insufficientDistractors
  else
    let translations := (pickAt other_verbs sel).map (fun v => v.translation)
    .ok { current_verb := current_verb
          correct_translation := correct_translation
          context_sentence := context_sentence
          translations := pickAt (translations ++ [correct_translation]) perm }

/-- The function `worker_prepare_question`: the thread target.  The result cell
`result_holder['data']` starts at `none`; it is written (exactly once) only
when `prepare_question_data` returns.  If `prepare_question_data` raises, the
exception kills the background thread silently and the cell keeps its
initial `none`. -/
def worker_prepare_question (verb_entry : VocabPair) (all_verbs : List VocabPair)
    (api_key : String) (tr : Except String String) (sel perm : List Nat) :
    Option QData :=
  match prepare_question_data verb_entry all_verbs api_key tr sel perm with
  | .ok d => some d
  | .error _ => none

/-- The outstanding background job: `st.session_state.next_question_job`.
`pair` is the entry popped for it on the main thread; `result` is the value
the single-slot result cell holds once the thread has finished (`none` when
the worker raised and never wrote the cell). -/
structure PrefetchJob where
  pair : VocabPair
  result : Option QData
deriving DecidableEq, Repr

/-- The relevant keys of `st.session_state`, plus ghost instrumentation.
The last three fields (`alive_jobs`, `popped`, `job_started_for`) are ghost
history variables: started-but-not-yet-consumed-or-discarded job count, the
sequence of entries popped from `unused_verbs` on the main thread, and the
sequence of entries a background job was started for.  They record events and
never influence any behaviour. -/
structure SessionState where
  all_verbs : List VocabPair
  total_verbs : Nat
  unused_verbs : List VocabPair
  incorrect_answers : List AnswerRecord
  question_number : Nat
  api_key : String
  quiz_running : Bool
  show_feedback : Bool
  last_answer_was_correct : Bool
  current_question_data : Option QData
  next_question_job : Option PrefetchJob
  alive_jobs : Nat
  popped : List VocabPair
  job_started_for : List VocabPair
deriving Repr

/-- Python `list.pop()`: removes and returns the LAST element, or raises on
an empty list (`none` here). -/
def popLast {α : Type} (l : List α) : Option (α × List α) :=
  match l.getLast? with
  | some a => some (a, l.dropLast)
  | none => none

/-- The function `launch_next_question_job`.  `build` gives, for the popped entry, the
value its worker's result cell will hold once joined (`none` = the worker
raised).  Ghost bookkeeping: the pop is recorded in `popped`, the thread
start in `job_started_for` and `alive_jobs`. -/
def launch_next_question_job (build : VocabPair → Option QData) (s : SessionState) :
    SessionState :=
  match popLast s.unused_verbs with
  | some (next_verb_entry, rest) =>
    { s with
      unused_verbs := rest
      next_question_job := some { pair := next_verb_entry, result := build next_verb_entry }
      alive_jobs := s.alive_jobs + 1
      popped := s.popped ++ [next_verb_entry]
      job_started_for := s.job_started_for ++ [next_verb_entry] }
  | none => { s with next_question_job := none }

/-- The function `initialize_quiz`.  Returns the session state paired with the raised
error, if any: on `.insufficientData` the early `return` fires before any
session key is touched, so the state comes back unchanged; on
`.insufficientDistractors` (the first question's inline
`prepare_question_data` raising) the keys already assigned keep their new
values, faithfully to an uncaught mid-function exception.  `shufflePerm`
models `random.shuffle(verbs)`; `tr`, `sel`, `perm` are the first question's
inline build parameters; `build` gives the prefetch workers' outcomes. -/
def initialize_quiz (lines : List String) (api_key : String) (shufflePerm : List Nat)
    (tr : Except String String) (sel perm : List Nat)
    (build : VocabPair → Option QData) (s : SessionState) :
    SessionState × Option QuizError :=
  let verbs := load_verbs lines
  if verbs.length < 5 then
    (s, some .insufficientData)
  else
    let shuffled := pickAt verbs shufflePerm
    let s1 := { s with
      all_verbs := shuffled
      total_verbs := shuffled.length
      unused_verbs := shuffled
      incorrect_answers := []
      question_number := 1
      api_key := api_key
      quiz_running := true
      show_feedback := false }
    match popLast s1.unused_verbs with
    | none => (s1, some .insufficientData)
    | some (q1_verb, rest) =>
      let s2 := { s1 with unused_verbs := rest, popped := s1.popped ++ [q1_verb] }
      match prepare_question_data q1_verb shuffled api_key tr sel perm with
      | .error e => (s2, some e)
      | .ok d =>
        (launch_next_question_job build { s2 with current_question_data := some d }, none)

/-- The function `handle_answer`.  `none` models the `TypeError` Python raises when
`current_question_data` is `None` (the callback reads
`q['correct_translation']`). -/
def handle_answer (user_choice : String) (s : SessionState) : Option SessionState :=
  match s.current_question_data with
  | none => none
  | some q =>
    some { s with
      last_answer_was_correct := user_choice = q.correct_translation
      incorrect_answers :=
        if user_choice = q.correct_translation then
          s.incorrect_answers
        else
          s.incorrect_answers ++
            [{ verb := q.current_verb
               correct_translation := q.correct_translation
               user_choice := user_choice }]
      show_feedback := true }

/-- The function `next_question`.  When a job is outstanding it joins the thread (the
blocking `thread.join()` is modelled by reading the completed result cell),
adopts the cell's value, increments the counter and launches the next job.
The consumed job's ghost `alive_jobs` count is released; the field write
`next_question_job := none` before the relaunch is observationally identical
to Python's overwrite inside `launch_next_question_job`, which always
assigns the key. -/
def next_question (build : VocabPair → Option QData) (s : SessionState) : SessionState :=
  match s.next_question_job with
  | none => s
  | some job =>
    launch_next_question_job build
      { s with
        current_question_data := job.result
        question_number := s.question_number + 1
        show_feedback := false
        next_question_job := none
        alive_jobs := s.alive_jobs - 1 }

/-- The UI feedback branch (source lines 214-219): with a job outstanding the
"Next Question" button invokes `next_question`; otherwise the "Finish Quiz"
button sets `quiz_running = False`.  This is the spec's `advance()`. -/
def advance (build : VocabPair → Option QData) (s : SessionState) : SessionState :=
  match s.next_question_job with
  | some _ => next_question build s
  | none => { s with quiz_running := false }

/-- The "End Quiz Now" button: `quiz_running = False`.  The outstanding job,
if any, is discarded — never joined or consumed — so its ghost `alive_jobs`
count is released and the slot cleared (nothing reads the key once the quiz
stopped). -/
def abort_quiz (s : SessionState) : SessionState :=
  { s with
    quiz_running := false
    next_question_job := none
    alive_jobs := s.alive_jobs - (if s.next_question_job.isSome then 1 else 0) }

/-- The fresh Streamlit session: no quiz ever started. -/
def initState : SessionState :=
  { all_verbs := []
    total_verbs := 0
    unused_verbs := []
    incorrect_answers := []
    question_number := 0
    api_key := ""
    quiz_running := false
    show_feedback := false
    last_answer_was_correct := false
    current_question_data := none
    next_question_job := none
    alive_jobs := 0
    popped := []
    job_started_for := [] }

/-- The session states reachable through the UI: start (only from a
non-running state, per the spec's `NotStarted → Running` transition), answer
buttons, the feedback-branch buttons (`advance`), and "End Quiz Now". -/
inductive Reachable : SessionState → Prop where
  | init : Reachable initState
  | start (lines : List String) (api_key : String) (shufflePerm : List Nat)
      (tr : Except String String) (sel perm : List Nat)
      (build : VocabPair → Option QData) {s : SessionState} :
      Reachable s → s.quiz_running = false →
      Reachable (initialize_quiz lines api_key shufflePerm tr sel perm build s).1
  | answer (user_choice : String) {s s' : SessionState} :
      Reachable s → handle_answer user_choice s = some s' → Reachable s'
  | adv (build : VocabPair → Option QData) {s : SessionState} :
      Reachable s → Reachable (advance build s)
  | abort {s : SessionState} : Reachable s → Reachable (abort_quiz s)

/-- Iterated `list.pop()`: the sequence of returned elements (in pop order)
and the remaining list after `k` pops. -/
def popSeq {α : Type} : List α → Nat → List α × List α
  | l, 0 => ([], l)
  | l, k + 1 =>
    match popLast l with
    | none => ([], l)
    | some (v, rest) =>
      let p := popSeq rest k
      (v :: p.1, p.2)

/-! Helper lemmas. -/

theorem pickAt_length {α : Type} [Inhabited α] (l : List α) (idx : List Nat) :
    (pickAt l idx).length = idx.length := by
  simp [pickAt]

theorem pickAt_range {α : Type} [Inhabited α] (l : List α) :
    pickAt l (List.range l.length) = l := by
  induction l with
  | nil => rfl
  | cons a t ih =>
    simp only [pickAt] at ih ⊢
    rw [List.length_cons, List.range_succ_eq_map, List.map_cons, List.map_map]
    simp only [List.getD_cons_zero, Function.comp_def, List.getD_cons_succ]
    exact congrArg (a :: ·) ih

theorem pickAt_perm {α : Type} [Inhabited α] {l : List α} {perm : List Nat}
    (h : perm.Perm (List.range l.length)) : (pickAt l perm).Perm l := by
  have hm := h.map (fun i => l.getD i default)
  have hr : (List.range l.length).map (fun i => l.getD i default) = l := pickAt_range l
  rw [hr] at hm
  exact hm

theorem pickAt_mem {α : Type} [Inhabited α] {l : List α} {sel : List Nat}
    (hb : ∀ i ∈ sel, i < l.length) : ∀ x ∈ pickAt l sel, x ∈ l := by
  intro x hx
  simp only [pickAt, List.mem_map] at hx
  obtain ⟨i, hi, rfl⟩ := hx
  rw [List.getD_eq_getElem _ _ (hb i hi)]
  exact List.getElem_mem _

theorem pickAt_map_nodup {α β : Type} [Inhabited α] (f : α → β)
    {l : List α} {sel : List Nat} (hnd : (l.map f).Nodup) (hs : sel.Nodup)
    (hb : ∀ i ∈ sel, i < l.length) : ((pickAt l sel).map f).Nodup := by
  have hrw : (pickAt l sel).map f = sel.map (fun i => f (l.getD i default)) := by
    simp [pickAt, List.map_map, Function.comp_def]
  rw [hrw]
  refine List.Nodup.map_on ?_ hs
  intro i hi j hj hf
  have hi' := hb i hi
  have hj' := hb j hj
  rw [List.getD_eq_getElem _ _ hi', List.getD_eq_getElem _ _ hj'] at hf
  have hi2 : i < (l.map f).length := by simpa using hi'
  have hj2 : j < (l.map f).length := by simpa using hj'
  have hkey : (l.map f)[i] = (l.map f)[j] := by
    simpa [List.getElem_map] using hf
  exact hnd.getElem_inj_iff.mp hkey

theorem length_filter_translation_ne (t : String) :
    ∀ all : List VocabPair, (all.map (fun v => v.translation)).Nodup →
      t ∈ all.map (fun v => v.translation) →
      (all.filter (fun v => v.translation ≠ t)).length = all.length - 1 := by
  intro all
  induction all with
  | nil => intro _ hmem; simp at hmem
  | cons a rest ih =>
    intro hnd hmem
    simp only [List.map_cons, List.nodup_cons] at hnd
    rcases eq_or_ne a.translation t with heq | hne
    · have hrest : ∀ v ∈ rest, v.translation ≠ t := by
        intro v hv hvt
        exact hnd.1 (heq ▸ hvt ▸ List.mem_map_of_mem (fun v => v.translation) hv)
      have hself : rest.filter (fun v => v.translation ≠ t) = rest := by
        rw [List.filter_eq_self]
        intro v hv
        simpa using hrest v hv
      have hcond : decide (a.translation ≠ t) = false := by simp [heq]
      rw [List.filter_cons, hcond]
      simp only [Bool.false_eq_true, if_false, hself, List.length_cons]
      omega
    · have hmem' : t ∈ rest.map (fun v => v.translation) := by
        rcases List.mem_cons.mp hmem with h | h
        · exact absurd h.symm hne
        · exact h
      have hlen : 1 ≤ rest.length := by
        rcases List.mem_map.mp hmem' with ⟨v, hv, _⟩
        exact List.length_pos.mpr (List.ne_nil_of_mem hv)
      have hrec := ih hnd.2 hmem'
      have hcond : decide (a.translation ≠ t) = true := by simp [hne]
      rw [List.filter_cons, hcond]
      simp only [if_true, List.length_cons]
      omega

theorem popSeq_spec {α : Type} :
    ∀ (k : Nat) (l : List α), k ≤ l.length →
      (popSeq l k).1 = (l.drop (l.length - k)).reverse ∧
      (popSeq l k).2 = l.take (l.length - k) := by
  intro k
  induction k with
  | zero => intro l _; simp [popSeq]
  | succ k ih =>
    intro l hk
    rcases List.eq_nil_or_concat l with rfl | ⟨L, b, rfl⟩
    · simp at hk
    · rw [List.concat_eq_append] at hk ⊢
      have hpop : popLast (L ++ [b]) = some (b, L) := by
        simp [popLast, List.getLast?_concat, List.dropLast_concat]
      have hk' : k ≤ L.length := by
        have := hk
        simp only [List.length_append, List.length_singleton] at this
        omega
      obtain ⟨ih1, ih2⟩ := ih L hk'
      have hlen : (L ++ [b]).length - (k + 1) = L.length - k := by
        simp only [List.length_append, List.length_singleton]
        omega
      have hdrop : (L ++ [b]).drop (L.length - k) = L.drop (L.length - k) ++ [b] := by
        rw [List.drop_append_eq_append_drop]
        have : L.length - k - L.length = 0 := by omega
        rw [this, List.drop_zero]
      have htake : (L ++ [b]).take (L.length - k) = L.take (L.length - k) := by
        rw [List.take_append_eq_append_take]
        have : L.length - k - L.length = 0 := by omega
        rw [this, List.take_zero, List.append_nil]
      constructor
      · show (popSeq (L ++ [b]) (k + 1)).1 = _
        rw [popSeq, hpop]
        simp only [hlen, hdrop, List.reverse_append, List.reverse_cons, List.reverse_nil,
          List.nil_append, List.singleton_append]
        exact congrArg (b :: ·) ih1
      · show (popSeq (L ++ [b]) (k + 1)).2 = _
        rw [popSeq, hpop]
        simpa only [hlen, htake] using ih2

/-- Inductive strengthening for the single-job invariant: the ghost count of
started-but-not-consumed-or-discarded jobs always matches the job slot, and a
non-running quiz holds no job. -/
def JobGhostInv (s : SessionState) : Prop :=
  s.alive_jobs = (if s.next_question_job.isSome then 1 else 0) ∧
  (s.quiz_running = false → s.next_question_job = none)

theorem launch_jobGhostInv {s : SessionState} (build : VocabPair → Option QData)
    (ha : s.alive_jobs = 0) (hr : s.quiz_running = true) :
    JobGhostInv (launch_next_question_job build s) := by
  unfold JobGhostInv launch_next_question_job
  split
  · refine ⟨by simp [ha], ?_⟩
    intro hc
    simp only at hc
    rw [hr] at hc
    cases hc
  · exact ⟨by simp [ha], fun _ => rfl⟩

theorem init_quiz_jobGhostInv (lines : List String) (api_key : String)
    (shufflePerm : List Nat) (tr : Except String String) (sel perm : List Nat)
    (build : VocabPair → Option QData) {s : SessionState}
    (hnr : s.quiz_running = false) (ih : JobGhostInv s) :
    JobGhostInv (initialize_quiz lines api_key shufflePerm tr sel perm build s).1 := by
  simp only [initialize_quiz]
  split
  · exact ih
  · split
    · refine ⟨by simp [ih.1, ih.2 hnr], ?_⟩
      intro hc
      simp only at hc
      cases hc
    · split
      · refine ⟨by simp [ih.1, ih.2 hnr], ?_⟩
        intro hc
        simp only at hc
        cases hc
      · exact launch_jobGhostInv build (by simp [ih.1, ih.2 hnr]) (by simp)

theorem handle_answer_jobGhostInv (user_choice : String) {s s' : SessionState}
    (heq : handle_answer user_choice s = some s') (ih : JobGhostInv s) :
    JobGhostInv s' := by
  unfold handle_answer at heq
  split at heq
  · cases heq
  · rw [Option.some_inj] at heq
    subst heq
    refine ⟨by simp [ih.1], ?_⟩
    intro hc
    simp only at hc
    simpa using ih.2 hc

theorem advance_jobGhostInv (build : VocabPair → Option QData) {s : SessionState}
    (ih : JobGhostInv s) : JobGhostInv (advance build s) := by
  unfold advance
  split
  · rename_i j heq
    unfold next_question
    rw [heq]
    have hrun : s.quiz_running = true := by
      cases hrb : s.quiz_running
      · rw [ih.2 hrb] at heq
        cases heq
      · rfl
    exact launch_jobGhostInv build (by simp [ih.1, heq]) (by simpa using hrun)
  · rename_i heq
    exact ⟨by simp [ih.1, heq], fun _ => by simp [heq]⟩

theorem abort_jobGhostInv {s : SessionState} (ih : JobGhostInv s) :
    JobGhostInv (abort_quiz s) := by
  refine ⟨?_, fun _ => by simp [abort_quiz]⟩
  rcases hj : s.next_question_job with _ | j <;>
    simp [abort_quiz, ih.1, hj]

theorem reachable_jobGhostInv {s : SessionState} (h : Reachable s) : JobGhostInv s := by
  induction h with
  | init => exact ⟨rfl, fun _ => rfl⟩
  | start lines api_key shufflePerm tr sel perm build hr hnr ih =>
    exact init_quiz_jobGhostInv lines api_key shufflePerm tr sel perm build hnr ih
  | answer user_choice hr heq ih => exact handle_answer_jobGhostInv user_choice heq ih
  | adv build hr ih => exact advance_jobGhostInv build ih
  | abort hr ih => exact abort_jobGhostInv ih

theorem launch_started_sublist {s : SessionState} (build : VocabPair → Option QData)
    (h : s.job_started_for.Sublist s.popped) :
    (launch_next_question_job build s).job_started_for.Sublist
      (launch_next_question_job build s).popped := by
  unfold launch_next_question_job
  split
  · rename_i v rest hpop
    simpa using h.append (List.Sublist.refl [v])
  · exact h

theorem init_quiz_started_sublist (lines : List String) (api_key : String)
    (shufflePerm : List Nat) (tr : Except String String) (sel perm : List Nat)
    (build : VocabPair → Option QData) {s : SessionState}
    (ih : s.job_started_for.Sublist s.popped) :
    (initialize_quiz lines api_key shufflePerm tr sel perm build s).1.job_started_for.Sublist
      (initialize_quiz lines api_key shufflePerm tr sel perm build s).1.popped := by
  simp only [initialize_quiz]
  split
  · exact ih
  · split
    · exact ih
    · split
      · exact ih.trans (List.sublist_append_left _ _)
      · exact launch_started_sublist build (ih.trans (List.sublist_append_left _ _))

theorem reachable_started_sublist {s : SessionState} (h : Reachable s) :
    s.job_started_for.Sublist s.popped := by
  induction h with
  | init => exact List.Sublist.refl _
  | start lines api_key shufflePerm tr sel perm build hr hnr ih =>
    exact init_quiz_started_sublist lines api_key shufflePerm tr sel perm build ih
  | answer user_choice hr heq ih =>
    unfold handle_answer at heq
    split at heq
    · cases heq
    · rw [Option.some_inj] at heq
      subst heq
      exact ih
  | adv build hr ih =>
    unfold advance
    split
    · rename_i j heq
      unfold next_question
      rw [heq]
      exact launch_started_sublist build ih
    · exact ih
  | abort hr ih => exact ih

theorem popLast_eq_none_iff {α : Type} (l : List α) : popLast l = none ↔ l = [] := by
  cases h : l.getLast? with
  | none =>
    have : l = [] := List.getLast?_eq_none_iff.mp h
    subst this
    simp [popLast]
  | some a =>
    have hne : l ≠ [] := by
      intro hl
      subst hl
      simp at h
    simp [popLast, h, hne]

/-! Concrete fixtures used by witnesses and counterexamples. -/

/-- A 5-pair pool whose translations are pairwise distinct. -/
def poolU : List VocabPair :=
  [⟨"a", "1"⟩, ⟨"b", "2"⟩, ⟨"c", "3"⟩, ⟨"d", "4"⟩, ⟨"e", "5"⟩]

/-- A 5-pair pool in which two distinct pairs share the translation "2". -/
def poolDup : List VocabPair :=
  [⟨"a", "1"⟩, ⟨"b", "2"⟩, ⟨"c", "2"⟩, ⟨"d", "3"⟩, ⟨"e", "4"⟩]

/-- A 5-pair pool in which every pair has the same translation "x". -/
def poolX : List VocabPair :=
  [⟨"a", "x"⟩, ⟨"b", "x"⟩, ⟨"c", "x"⟩, ⟨"d", "x"⟩, ⟨"e", "x"⟩]

/-- A question record used to exercise the answer / advance callbacks. -/
def qFix : QData :=
  { current_verb := "a", correct_translation := "1", context_sentence := "s",
    translations := ["2", "3", "4", "5", "1"] }

/-! Claim theorems. -/

/-- C3: for every input that parses to fewer than 5 vocabulary pairs,
`initialize_quiz` fails with `InsufficientDataError` (the `st.error` early
return) and the whole session state comes back exactly as it was — in
particular a `NotStarted` engine stays `NotStarted` and nothing is
mutated. -/
theorem C3_insufficient_data_leaves_state_unchanged (lines : List String)
    (api_key : String) (shufflePerm : List Nat) (tr : Except String String)
    (sel perm : List Nat) (build : VocabPair → Option QData) (s : SessionState)
    (hlt : (load_verbs lines).length < 5) :
    initialize_quiz lines api_key shufflePerm tr sel perm build s =
      (s, some QuizError.insufficientData) := by
  simp only [initialize_quiz]
  rw [if_pos hlt]

theorem C3_insufficient_data_leaves_state_unchanged_witness :
    (load_verbs ["a [1]", "b [2]", "no brackets"]).length < 5 ∧
    initialize_quiz ["a [1]", "b [2]", "no brackets"] "key" [] (.ok "s") [] []
        (fun _ => none) initState = (initState, some QuizError.insufficientData) :=
  ⟨by decide,
   C3_insufficient_data_leaves_state_unchanged ["a [1]", "b [2]", "no brackets"] "key" []
     (.ok "s") [] [] (fun _ => none) initState (by decide)⟩

/-- C5: for every current question `q` and every submitted choice,
`handle_answer` records correctness as equality of the choice with
`q.correct_translation`, appends an `AnswerRecord` to `incorrect_answers`
iff the choice is incorrect, sets the feedback flag, and leaves the pair
pool (`unused_verbs`, `all_verbs`) and the outstanding `next_question_job`
unchanged. -/
theorem C5_handle_answer_records_correctness (s : SessionState) (q : QData)
    (user_choice : String) (hq : s.current_question_data = some q) :
    ∃ s', handle_answer user_choice s = some s' ∧
      (s'.last_answer_was_correct = true ↔ user_choice = q.correct_translation) ∧
      (user_choice = q.correct_translation →
        s'.incorrect_answers = s.incorrect_answers) ∧
      (user_choice ≠ q.correct_translation →
        s'.incorrect_answers = s.incorrect_answers ++
          [{ verb := q.current_verb, correct_translation := q.correct_translation,
             user_choice := user_choice }]) ∧
      s'.unused_verbs = s.unused_verbs ∧
      s'.all_verbs = s.all_verbs ∧
      s'.next_question_job = s.next_question_job ∧
      s'.show_feedback = true := by
  have h1 : handle_answer user_choice s = some
      { s with
        last_answer_was_correct := user_choice = q.correct_translation
        incorrect_answers :=
          if user_choice = q.correct_translation then
            s.incorrect_answers
          else
            s.incorrect_answers ++
              [{ verb := q.current_verb, correct_translation := q.correct_translation,
                 user_choice := user_choice }]
        show_feedback := true } := by
    unfold handle_answer
    rw [hq]
  refine ⟨_, h1, ?_, ?_, ?_, rfl, rfl, rfl, rfl⟩
  · by_cases h : user_choice = q.correct_translation <;> simp [h]
  · intro h
    simp [h]
  · intro h
    simp [h]

theorem C5_handle_answer_records_correctness_witness :
    ({ initState with current_question_data := some qFix } :
        SessionState).current_question_data = some qFix ∧
    ∃ s', handle_answer "2" { initState with current_question_data := some qFix } = some s' ∧
      (s'.last_answer_was_correct = true ↔ ("2" : String) = qFix.correct_translation) ∧
      (("2" : String) = qFix.correct_translation →
        s'.incorrect_answers = initState.incorrect_answers) ∧
      (("2" : String) ≠ qFix.correct_translation →
        s'.incorrect_answers = initState.incorrect_answers ++
          [{ verb := qFix.current_verb, correct_translation := qFix.correct_translation,
             user_choice := "2" }]) ∧
      s'.unused_verbs = initState.unused_verbs ∧
      s'.all_verbs = initState.all_verbs ∧
      s'.next_question_job = initState.next_question_job ∧
      s'.show_feedback = true :=
  ⟨rfl, C5_handle_answer_records_correctness
    { initState with current_question_data := some qFix } qFix "2" rfl⟩

/-- C7: in every reachable session state, at most one PrefetchJob is alive:
`alive_jobs` counts the background jobs started whose result has been
neither consumed (joined by the feedback-branch advance) nor discarded
(quiz end), and it never exceeds one. -/
theorem C7_at_most_one_prefetch_job (s : SessionState) (h : Reachable s) :
    s.alive_jobs ≤ 1 := by
  rw [(reachable_jobGhostInv h).1]
  split <;> simp

theorem C7_at_most_one_prefetch_job_witness : initState.alive_jobs ≤ 1 :=
  C7_at_most_one_prefetch_job initState Reachable.init

/-- C9: the parser accepts a line iff it contains both `[` and `]`; on an
accepted line the verb is the (stripped) text before the FIRST `[` and the
meaning the (stripped) text from just after that `[` up to the first
following `]` (all of the remainder when no `]` follows) — no further
validation.  The concrete run shows: a line whose `]` precedes its `[` is
accepted, a line starting with `[` yields an empty term, `a [ ]` yields an
empty meaning, a bracketless line is dropped, and duplicates survive in
file order. -/
theorem C9_load_verbs_parsing :
    (∀ l : List Char,
      parseLine l =
        if l.contains '[' && l.contains ']' then
          some { verb := ⟨pyStrip (l.takeWhile (fun c => c ≠ '['))⟩,
                 translation :=
                   ⟨pyStrip (((l.dropWhile (fun c => c ≠ '[')).tail).takeWhile
                     (fun c => c ≠ ']'))⟩ }
        else none) ∧
    load_verbs ["x]y[z", "laufen [to run]\n", "a [ ]", "no brackets", "r [m]", "r [m]",
        "[to fly]"] =
      [⟨"x]y", "z"⟩, ⟨"laufen", "to run"⟩, ⟨"a", ""⟩, ⟨"r", "m"⟩, ⟨"r", "m"⟩,
        ⟨"", "to fly"⟩] := by
  exact ⟨fun l => rfl, by decide⟩

/-- C10: if the background worker's `prepare_question_data` raises (here:
returns an error), the worker never writes the result cell, so it stays at
its initial `none`; the foreground join in `next_question` still returns
normally, the engine adopts `none` as `current_question_data` instead of a
valid question, and the counter still advances. -/
theorem C10_worker_failure_adopts_none :
    (∀ (verb_entry : VocabPair) (all_verbs : List VocabPair) (api_key : String)
        (tr : Except String String) (sel perm : List Nat) (e : QuizError),
      prepare_question_data verb_entry all_verbs api_key tr sel perm = .error e →
      worker_prepare_question verb_entry all_verbs api_key tr sel perm = none) ∧
    (∀ (build : VocabPair → Option QData) (s : SessionState) (j : PrefetchJob),
      s.next_question_job = some j → j.result = none →
      (next_question build s).current_question_data = none ∧
      (next_question build s).question_number = s.question_number + 1) := by
  constructor
  · intro verb_entry all_verbs api_key tr sel perm e h
    unfold worker_prepare_question
    rw [h]
  · intro build s j hj hres
    have h1 : next_question build s = launch_next_question_job build
        { s with
          current_question_data := j.result
          question_number := s.question_number + 1
          show_feedback := false
          next_question_job := none
          alive_jobs := s.alive_jobs - 1 } := by
      unfold next_question
      rw [hj]
    rw [h1]
    unfold launch_next_question_job
    split <;> simp [hres]

theorem C10_worker_failure_adopts_none_witness :
    prepare_question_data ⟨"a", "x"⟩ poolX "k" (.ok "s") [0, 1, 2, 3] [0, 1, 2, 3, 4] =
      .error .insufficientDistractors ∧
    worker_prepare_question ⟨"a", "x"⟩ poolX "k" (.ok "s") [0, 1, 2, 3] [0, 1, 2, 3, 4] =
      none ∧
    (next_question (fun _ => none)
        { initState with next_question_job := some { pair := ⟨"a", "x"⟩, result := none } }
      ).current_question_data = none :=
  ⟨by rfl,
   C10_worker_failure_adopts_none.1 ⟨"a", "x"⟩ poolX "k" (.ok "s") [0, 1, 2, 3]
     [0, 1, 2, 3, 4] .insufficientDistractors (by rfl),
   (C10_worker_failure_adopts_none.2 (fun _ => none)
     { initState with next_question_job := some { pair := ⟨"a", "x"⟩, result := none } }
     { pair := ⟨"a", "x"⟩, result := none } rfl rfl).1⟩

/-- A completed prefetch job used by the advance witness. -/
def jFix : PrefetchJob := { pair := ⟨"a", "1"⟩, result := some qFix }

def sJobFix : SessionState := { initState with next_question_job := some jFix }

/-- C6: the feedback-branch advance.  With a job outstanding, the "Next
Question" path joins the background thread (modelled by reading the
completed result cell), adopts the cell's value as the current record,
increments the counter by exactly one, keeps the quiz running, and starts a
new PrefetchJob iff the pool still has unused pairs.  With no job
outstanding, the "Finish Quiz" path sets the engine to Finished
(`quiz_running = false`) and starts no job. -/
theorem C6_advance_joins_adopts_and_relaunches (build : VocabPair → Option QData)
    (s : SessionState) :
    (∀ j : PrefetchJob, s.next_question_job = some j →
      (advance build s).current_question_data = j.result ∧
      (advance build s).question_number = s.question_number + 1 ∧
      ((advance build s).next_question_job.isSome ↔ s.unused_verbs ≠ []) ∧
      (advance build s).quiz_running = s.quiz_running) ∧
    (s.next_question_job = none →
      advance build s = { s with quiz_running := false } ∧
      (advance build s).next_question_job = none) := by
  constructor
  · intro j hj
    have hadv : advance build s = launch_next_question_job build
        { s with
          current_question_data := j.result
          question_number := s.question_number + 1
          show_feedback := false
          next_question_job := none
          alive_jobs := s.alive_jobs - 1 } := by
      unfold advance next_question
      rw [hj]
    rw [hadv]
    unfold launch_next_question_job
    split
    · rename_i v rest hpop
      refine ⟨rfl, rfl, ?_, rfl⟩
      have hne : s.unused_verbs ≠ [] := by
        intro hnil
        rw [(popLast_eq_none_iff s.unused_verbs).mpr hnil] at hpop
        cases hpop
      simp [hne]
    · rename_i hpop
      have hnil : s.unused_verbs = [] := (popLast_eq_none_iff s.unused_verbs).mp hpop
      refine ⟨rfl, rfl, ?_, rfl⟩
      simp [hnil]
  · intro hj
    unfold advance
    rw [hj]
    exact ⟨rfl, rfl⟩

theorem C6_advance_joins_adopts_and_relaunches_witness :
    ((advance (fun _ => none) sJobFix).current_question_data = jFix.result ∧
     (advance (fun _ => none) sJobFix).question_number = sJobFix.question_number + 1 ∧
     ((advance (fun _ => none) sJobFix).next_question_job.isSome ↔
       sJobFix.unused_verbs ≠ []) ∧
     (advance (fun _ => none) sJobFix).quiz_running = sJobFix.quiz_running) ∧
    (advance (fun _ => none) initState = { initState with quiz_running := false } ∧
     (advance (fun _ => none) initState).next_question_job = none) :=
  ⟨(C6_advance_joins_adopts_and_relaunches (fun _ => none) sJobFix).1 jFix rfl,
   (C6_advance_joins_adopts_and_relaunches (fun _ => none) initState).2 rfl⟩

def sPoolFix : SessionState := { initState with unused_verbs := poolU }

/-- C8: pool-pop discipline.  Pops take pairs from one fixed end (the tail
of the shuffled sequence): after any `k ≤ N` pops the returned sequence is
exactly the reversed tail-suffix and the remainder the complementary
prefix, so each entry position is consumed at most once and a
duplicate-free pool yields duplicate-free returns; a PrefetchJob is started
exactly for the pair the same foreground call just popped; and in every
reachable state the pairs a job was started for form a subsequence of the
pairs popped on the foreground thread. -/
theorem C8_pool_pop_discipline :
    (∀ (l : List VocabPair) (k : Nat), k ≤ l.length →
      (popSeq l k).1 = (l.drop (l.length - k)).reverse ∧
      (popSeq l k).2 = l.take (l.length - k) ∧
      (l.Nodup → (popSeq l k).1.Nodup)) ∧
    (∀ (build : VocabPair → Option QData) (s : SessionState) (v : VocabPair)
        (rest : List VocabPair), popLast s.unused_verbs = some (v, rest) →
      (launch_next_question_job build s).next_question_job =
        some { pair := v, result := build v } ∧
      (launch_next_question_job build s).unused_verbs = rest ∧
      (launch_next_question_job build s).popped = s.popped ++ [v] ∧
      (launch_next_question_job build s).job_started_for = s.job_started_for ++ [v]) ∧
    (∀ s : SessionState, Reachable s → s.job_started_for.Sublist s.popped) := by
  refine ⟨?_, ?_, fun s h => reachable_started_sublist h⟩
  · intro l k hk
    obtain ⟨h1, h2⟩ := popSeq_spec k l hk
    refine ⟨h1, h2, ?_⟩
    intro hnd
    rw [h1]
    exact List.nodup_reverse.mpr (hnd.sublist (List.drop_sublist _ _))
  · intro build s v rest hpop
    unfold launch_next_question_job
    rw [hpop]
    exact ⟨rfl, rfl, rfl, rfl⟩

theorem C8_pool_pop_discipline_witness :
    (popSeq poolU 2).1 = (poolU.drop (poolU.length - 2)).reverse ∧
    (popSeq poolU 2).1.Nodup ∧
    (launch_next_question_job (fun _ => none) sPoolFix).popped =
      sPoolFix.popped ++ [⟨"e", "5"⟩] ∧
    initState.job_started_for.Sublist initState.popped :=
  ⟨(C8_pool_pop_discipline.1 poolU 2 (by decide)).1,
   (C8_pool_pop_discipline.1 poolU 2 (by decide)).2.2 (by decide),
   ((C8_pool_pop_discipline.2.1 (fun _ => none) sPoolFix ⟨"e", "5"⟩
       [⟨"a", "1"⟩, ⟨"b", "2"⟩, ⟨"c", "3"⟩, ⟨"d", "4"⟩] (by rfl)).2.2).1,
   C8_pool_pop_discipline.2.2 initState Reachable.init⟩

/-- C2, counterexample to the claim as stated: `poolX` holds 5 pairs, yet
for the pair `⟨a, x⟩` the distractor draw fails — every pool pair shares the
translation "x", so no pair has a meaning different from the correct one
and `random.sample` raises.  The ≥5-pairs precondition does not make the
failure branch unreachable. -/
theorem C2_counterexample_five_pairs_draw_fails :
    poolX.length = 5 ∧ (⟨"a", "x"⟩ : VocabPair) ∈ poolX ∧
    prepare_question_data ⟨"a", "x"⟩ poolX "k" (.ok "s") [0, 1, 2, 3] [0, 1, 2, 3, 4] =
      .error .insufficientDistractors :=
  ⟨by decide, by decide, by rfl⟩

/-- C2 amended: the distractor draw fails with `InsufficientDistractorsError`
exactly when fewer than 4 pool pairs have a translation different from the
correct one; a pool of at least 5 pairs does not by itself make this branch
unreachable — it is unreachable under the additional assumption that no two
pool pairs share a translation, in which case the draw always succeeds. -/
theorem C2_distractor_failure_iff (verb_entry : VocabPair) (all_verbs : List VocabPair)
    (api_key : String) (tr : Except String String) (sel perm : List Nat) :
    (prepare_question_data verb_entry all_verbs api_key tr sel perm =
        .error .insufficientDistractors ↔
      (all_verbs.filter (fun v => v.translation ≠ verb_entry.translation)).length < 4) ∧
    ((all_verbs.map (fun v => v.translation)).Nodup → verb_entry ∈ all_verbs →
      5 ≤ all_verbs.length →
      ∃ d, prepare_question_data verb_entry all_verbs api_key tr sel perm = .ok d) := by
  have hunf : prepare_question_data verb_entry all_verbs api_key tr sel perm =
      if (all_verbs.filter (fun v => v.translation ≠ verb_entry.translation)).length < 4 then
        .error .insufficientDistractors
      else
        .ok { current_verb := verb_entry.verb
              correct_translation := verb_entry.translation
              context_sentence := generate_context_sentence verb_entry.verb api_key tr
              translations :=
                pickAt (((pickAt
                    (all_verbs.filter (fun v => v.translation ≠ verb_entry.translation))
                    sel).map (fun v => v.translation)) ++ [verb_entry.translation]) perm } :=
    rfl
  constructor
  · by_cases h :
      (all_verbs.filter (fun v => v.translation ≠ verb_entry.translation)).length < 4
    · rw [hunf, if_pos h]
      exact iff_of_true rfl h
    · rw [hunf, if_neg h]
      exact iff_of_false (by simp) h
  · intro hnd hmem hlen
    have hol := length_filter_translation_ne verb_entry.translation all_verbs hnd
      (List.mem_map_of_mem _ hmem)
    have h4 : ¬ (all_verbs.filter
        (fun v => v.translation ≠ verb_entry.translation)).length < 4 := by
      omega
    exact ⟨_, by rw [hunf, if_neg h4]⟩

theorem C2_distractor_failure_iff_witness :
    ∃ d, prepare_question_data ⟨"a", "1"⟩ poolU "k" (.ok "s") [0, 1, 2, 3] [0, 1, 2, 3, 4] =
      .ok d :=
  (C2_distractor_failure_iff ⟨"a", "1"⟩ poolU "k" (.ok "s") [0, 1, 2, 3] [0, 1, 2, 3, 4]).2
    (by decide) (by decide) (by decide)

/-- C1, counterexample to the claim as stated: in the valid 5-pair pool
`poolDup` the distinct pairs `b` and `c` share the translation "2"; a
legitimate `random.sample` draw picks both, so the built question's options
are `["2", "2", "3", "4", "1"]` — 5 entries containing the correct meaning,
but with two equal option values. -/
theorem C1_counterexample_duplicate_options :
    poolDup.length = 5 ∧ (⟨"a", "1"⟩ : VocabPair) ∈ poolDup ∧
    IsSampleSel [0, 1, 2, 3]
      ((poolDup.filter (fun v => v.translation ≠
        (⟨"a", "1"⟩ : VocabPair).translation)).length) 4 ∧
    IsShuffle [0, 1, 2, 3, 4] 5 ∧
    prepare_question_data ⟨"a", "1"⟩ poolDup "k" (.ok "s") [0, 1, 2, 3] [0, 1, 2, 3, 4] =
      .ok { current_verb := "a", correct_translation := "1", context_sentence := "s",
            translations := ["2", "2", "3", "4", "1"] } ∧
    ¬ (["2", "2", "3", "4", "1"] : List String).Nodup :=
  ⟨by decide, by decide, by decide, by decide, by rfl, by decide⟩

/-- C1 amended: every question built by a valid draw has exactly 5 options
containing the correct meaning (which is the record's correct translation),
and the options are pairwise distinct PROVIDED no two pool pairs share a
translation; moreover whenever `initialize_quiz` succeeds, its first current
question is exactly a `prepare_question_data` output for the pair popped
from the shuffled pool, so the first question of a successful start enjoys
the same properties. -/
theorem C1_five_unique_options_amended :
    (∀ (verb_entry : VocabPair) (all_verbs : List VocabPair) (api_key : String)
        (tr : Except String String) (sel perm : List Nat),
      verb_entry ∈ all_verbs → 5 ≤ all_verbs.length →
      (all_verbs.map (fun v => v.translation)).Nodup →
      IsSampleSel sel
        ((all_verbs.filter (fun v => v.translation ≠ verb_entry.translation)).length) 4 →
      IsShuffle perm 5 →
      ∃ d, prepare_question_data verb_entry all_verbs api_key tr sel perm = .ok d ∧
        d.translations.length = 5 ∧
        verb_entry.translation ∈ d.translations ∧
        d.translations.Nodup ∧
        d.correct_translation = verb_entry.translation) ∧
    (∀ (lines : List String) (api_key : String) (shufflePerm : List Nat)
        (tr : Except String String) (sel perm : List Nat)
        (build : VocabPair → Option QData) (s s' : SessionState),
      initialize_quiz lines api_key shufflePerm tr sel perm build s = (s', none) →
      ∃ d q1 rest,
        popLast (pickAt (load_verbs lines) shufflePerm) = some (q1, rest) ∧
        prepare_question_data q1 (pickAt (load_verbs lines) shufflePerm) api_key tr sel
          perm = .ok d ∧
        s'.current_question_data = some d) := by
  constructor
  · intro verb_entry all_verbs api_key tr sel perm hmem hlen hnd hsel hperm
    obtain ⟨hsl, hsnd, hsb⟩ := hsel
    have hol := length_filter_translation_ne verb_entry.translation all_verbs hnd
      (List.mem_map_of_mem _ hmem)
    have h4 : ¬ (all_verbs.filter
        (fun v => v.translation ≠ verb_entry.translation)).length < 4 := by
      omega
    have hlen0 : (((pickAt
        (all_verbs.filter (fun v => v.translation ≠ verb_entry.translation)) sel).map
          (fun v => v.translation)) ++ [verb_entry.translation]).length = 5 := by
      simp [pickAt_length, hsl]
    have hT : (pickAt (((pickAt
        (all_verbs.filter (fun v => v.translation ≠ verb_entry.translation)) sel).map
          (fun v => v.translation)) ++ [verb_entry.translation]) perm).Perm
        (((pickAt
          (all_verbs.filter (fun v => v.translation ≠ verb_entry.translation)) sel).map
            (fun v => v.translation)) ++ [verb_entry.translation]) :=
      pickAt_perm (by rw [hlen0]; exact hperm)
    refine ⟨_, by
      rw [show prepare_question_data verb_entry all_verbs api_key tr sel perm =
        if (all_verbs.filter
            (fun v => v.translation ≠ verb_entry.translation)).length < 4 then
          .error .insufficientDistractors
        else
          .ok { current_verb := verb_entry.verb
                correct_translation := verb_entry.translation
                context_sentence := generate_context_sentence verb_entry.verb api_key tr
                translations :=
                  pickAt (((pickAt
                      (all_verbs.filter
                        (fun v => v.translation ≠ verb_entry.translation)) sel).map
                        (fun v => v.translation)) ++ [verb_entry.translation]) perm }
        from rfl, if_neg h4], ?_, ?_, ?_, rfl⟩
    · exact hT.length_eq.trans hlen0
    · exact hT.mem_iff.mpr (by simp)
    · have hndo : ((all_verbs.filter
          (fun v => v.translation ≠ verb_entry.translation)).map
            (fun v => v.translation)).Nodup :=
        hnd.sublist ((List.filter_sublist _).map _)
      have hdistr := pickAt_map_nodup (fun v => v.translation) hndo hsnd hsb
      have hnotmem : verb_entry.translation ∉ (pickAt
          (all_verbs.filter (fun v => v.translation ≠ verb_entry.translation)) sel).map
            (fun v => v.translation) := by
        intro hmm
        obtain ⟨x, hx, hfx⟩ := List.mem_map.mp hmm
        have hxo := pickAt_mem hsb x hx
        have hxne := (List.mem_filter.mp hxo).2
        simp only [decide_not, Bool.not_eq_true', decide_eq_false_iff_not] at hxne
        exact hxne hfx
      refine hT.nodup_iff.mpr ?_
      rw [List.nodup_append]
      refine ⟨hdistr, List.nodup_singleton _, ?_⟩
      intro a ha hb
      rw [List.mem_singleton] at hb
      subst hb
      exact hnotmem ha
  · intro lines api_key shufflePerm tr sel perm build s s' heq
    simp only [initialize_quiz] at heq
    split at heq
    · exact absurd heq (by simp)
    · split at heq
      · exact absurd heq (by simp)
      · rename_i q1 rest hpop
        split at heq
        · exact absurd heq (by simp)
        · rename_i d hprep
          rw [Prod.mk.injEq] at heq
          obtain ⟨h1, -⟩ := heq
          refine ⟨d, q1, rest, hpop, hprep, ?_⟩
          rw [← h1]
          unfold launch_next_question_job
          split <;> rfl

theorem C1_five_unique_options_amended_witness :
    ∃ d, prepare_question_data ⟨"a", "1"⟩ poolU "k" (.ok "s") [0, 1, 2, 3]
        [4, 0, 1, 2, 3] = .ok d ∧
      d.translations.length = 5 ∧
      ("1" : String) ∈ d.translations ∧
      d.translations.Nodup ∧
      d.correct_translation = "1" :=
  C1_five_unique_options_amended.1 ⟨"a", "1"⟩ poolU "k" (.ok "s") [0, 1, 2, 3]
    [4, 0, 1, 2, 3] (by decide) (by decide) (by decide) (by decide) (by decide)

/-- C4, counterexample to the claim as stated: with a non-empty key and a
transport call that SUCCEEDS with empty content, `generate_context_sentence`
passes the content through verbatim, so the built question's prompt text is
the empty string — "building a question always yields a non-empty prompt
text" fails even though no call failed and nothing raised. -/
theorem C4_counterexample_empty_prompt :
    generate_context_sentence "gehen" "key" (.ok "") = "" ∧
    ∃ d, prepare_question_data ⟨"a", "1"⟩ poolU "key" (.ok "") [0, 1, 2, 3]
        [0, 1, 2, 3, 4] = .ok d ∧ d.context_sentence = "" :=
  ⟨rfl,
   ⟨{ current_verb := "a", correct_translation := "1", context_sentence := "",
      translations := ["2", "3", "4", "5", "1"] }, by rfl, rfl⟩⟩

/-- C4 amended: `generate_context_sentence` never raises — it is total, and
every failure path yields a non-empty human-readable placeholder: a missing
(empty) key yields "[API Key not provided]" and a transport error yields
"[Sentence generation failed for '<verb>': <cause>]", non-empty for every
verb and cause.  A successful call's content is passed through verbatim, so
the prompt text is non-empty unless the external call itself succeeds with
empty content. -/
theorem C4_failure_becomes_placeholder (verb api_key : String)
    (tr : Except String String) :
    (api_key = "" →
      generate_context_sentence verb api_key tr = "[API Key not provided]" ∧
      generate_context_sentence verb api_key tr ≠ "") ∧
    (∀ e : String, api_key ≠ "" → tr = .error e →
      generate_context_sentence verb api_key tr =
        "[Sentence generation failed for '" ++ verb ++ "': " ++ e ++ "]" ∧
      generate_context_sentence verb api_key tr ≠ "") ∧
    (∀ content : String, api_key ≠ "" → tr = .ok content →
      generate_context_sentence verb api_key tr = content) := by
  refine ⟨?_, ?_, ?_⟩
  · intro hk
    have hres : generate_context_sentence verb api_key tr = "[API Key not provided]" := by
      unfold generate_context_sentence
      rw [if_pos hk]
    refine ⟨hres, ?_⟩
    rw [hres]
    decide
  · intro e hk htr
    have hres : generate_context_sentence verb api_key tr =
        "[Sentence generation failed for '" ++ verb ++ "': " ++ e ++ "]" := by
      unfold generate_context_sentence
      rw [if_neg hk, htr]
    refine ⟨hres, ?_⟩
    rw [hres]
    intro hc
    have hl := congrArg String.length hc
    simp only [String.length_append] at hl
    have h1 : 0 < ("[Sentence generation failed for '" : String).length := by decide
    have h2 : ("" : String).length = 0 := rfl
    rw [h2] at hl
    omega
  · intro content hk htr
    unfold generate_context_sentence
    rw [if_neg hk, htr]

theorem C4_failure_becomes_placeholder_witness :
    generate_context_sentence "gehen" "" (.error "boom") = "[API Key not provided]" ∧
    generate_context_sentence "gehen" "key" (.error "boom") =
      "[Sentence generation failed for 'gehen': boom]" ∧
    generate_context_sentence "gehen" "key" (.ok "Ich gehe.") = "Ich gehe." :=
  ⟨((C4_failure_becomes_placeholder "gehen" "" (.error "boom")).1 rfl).1,
   (((C4_failure_becomes_placeholder "gehen" "key" (.error "boom")).2.1 "boom"
       (by decide) rfl).1).trans (by decide),
   (C4_failure_becomes_placeholder "gehen" "key" (.ok "Ich gehe.")).2.2 "Ich gehe."
     (by decide) rfl⟩

end K3qs
